import Mathlib

/-!
Verification development for the LLOgen.ai repository.

The repository ships a React client (`src/pages/Index.tsx`,
`src/components/GeneratorForm.tsx`, `src/components/ResultsViewer.tsx`)
and a Supabase SQL migration; the FastAPI backend (crawler, summarizer,
composer, validator, run coordinator) is not part of the shipped sources.
The definitions below embed the client code shallowly: React event
handlers become pure functions from their inputs (form state, fetched
HTTP responses) to the state updates and external calls they perform,
and the sequence of Supabase/backend calls a handler makes is recorded
as an explicit action list.  Parts of the backend that the spec
describes but the sources do not contain are modelled separately from
the spec's words and are marked as such in their doc comments.
-/

namespace LLOgen

/-- The `GeneratorData` interface of `GeneratorForm.tsx`: the settings
object submitted by the form.  `maxPages` is an `Int` because the form's
`parseInt` handler can produce negative values. -/
structure GeneratorData where
  siteUrl : String
  extras : String
  maxPages : Int
  language : String
  strictMode : Bool
  includeOptional : Bool
  whitelistDomains : String
deriving Repr, DecidableEq

/-- The initial `formData` state of `GeneratorForm`. -/
def initialFormData : GeneratorData :=
  { siteUrl := "", extras := "", maxPages := 50, language := "auto",
    strictMode := true, includeOptional := true, whitelistDomains := "" }

/-- Whitespace as stripped by JavaScript string trimming. -/
def isWS (c : Char) : Bool := c = ' ' || c = '\t' || c = '\n' || c = '\r'

/-- Model of JavaScript `String.prototype.trim()`: leading and trailing
whitespace removed. -/
def trimJS (s : String) : String :=
  String.mk (((s.data.dropWhile isWS).reverse.dropWhile isWS).reverse)

/-- Longest leading run of decimal digits of a character list, as a
number; `none` when the list does not start with a digit. -/
def leadingDigits : List Char → Option Nat
  | [] => none
  | c :: cs =>
    if c.isDigit then
      some (List.foldl (fun n d => n * 10 + (d.toNat - 48)) (c.toNat - 48)
        (cs.takeWhile Char.isDigit))
    else none

/-- Model of JavaScript `parseInt(s)` on decimal input: leading
whitespace skipped, an optional sign, then the longest run of decimal
digits; `none` models `NaN` (no leading digit).  Radix prefixes such as
`0x` are not modelled; they do not occur for this number input. -/
def parseIntJS (s : String) : Option Int :=
  match (trimJS s).data with
  | '-' :: rest => (leadingDigits rest).map (fun n => -(n : Int))
  | '+' :: rest => (leadingDigits rest).map (fun n => (n : Int))
  | cs => (leadingDigits cs).map (fun n => (n : Int))

/-- The Max Pages `onChange` handler of `GeneratorForm.tsx`
(`parseInt(e.target.value) || 50`): `NaN` and `0` are falsy in
JavaScript, so they fall back to `50`; any other parsed value, including
a negative one, is kept. -/
def maxPagesUpdate (s : String) : Int :=
  match parseIntJS s with
  | none => 50
  | some n => if n = 0 then 50 else n

/-- The `handleSubmit` handler of `GeneratorForm.tsx`: `onGenerate` is
invoked with the form data exactly when `formData.siteUrl.trim()` is a
truthy (nonempty) string; otherwise nothing happens. -/
def handleSubmit (formData : GeneratorData) : Option GeneratorData :=
  if trimJS formData.siteUrl ≠ "" then some formData else none

/-- The `disabled` prop of the submit button of `GeneratorForm.tsx`:
`isGenerating || !formData.siteUrl.trim()`. -/
def submitDisabled (isGenerating : Bool) (formData : GeneratorData) : Bool :=
  isGenerating || trimJS formData.siteUrl == ""

/-- Numeric projection of the `stepMap` lookup of `Index.tsx`
(`stepMap[status.step] || 0`): the fixed table over the backend stage
vocabulary, with everything else collapsed to `0`.  This is the value
`setCurrentStep` receives for every stage string that is not the name of
a member inherited from `Object.prototype`; the faithful model of the
lookup, prototype chain included, is `stepMapOrZero` below.  It is used
for the `currentStep` component state in `pollStep`, whose verified
properties do not depend on `currentStep`. -/
def stepMap (s : String) : Nat :=
  if s = "start" then 0
  else if s = "discover" then 1
  else if s = "extract" then 2
  else if s = "summarize" then 3
  else if s = "compose" then 4
  else if s = "validate" then 5
  else if s = "done" then 6
  else 0

/-- A JavaScript value as far as the `stepMap[status.step]` lookup can
produce one: a number from the object literal's own properties, a member
inherited from `Object.prototype` (a function or object, hence truthy),
or `undefined`. -/
inductive JsValue where
  | num (n : Nat)
  | protoMember (name : String)
  | undefined
deriving Repr, DecidableEq

/-- The member names every plain JavaScript object literal inherits from
`Object.prototype`, so that `stepMap[s]` is defined (and truthy) for
them even though they are not own keys of the literal. -/
def objectProtoKeys : List String :=
  ["constructor", "hasOwnProperty", "isPrototypeOf",
   "propertyIsEnumerable", "toLocaleString", "toString", "valueOf",
   "__proto__", "__defineGetter__", "__defineSetter__",
   "__lookupGetter__", "__lookupSetter__"]

/-- Faithful model of the JavaScript expression `stepMap[status.step]`
in `Index.tsx`: the object literal's own keys shadow the prototype;
otherwise the lookup walks the prototype chain and finds the inherited
`Object.prototype` member when the key names one; otherwise it is
`undefined`. -/
def stepMapLookup (s : String) : JsValue :=
  if s = "start" then .num 0
  else if s = "discover" then .num 1
  else if s = "extract" then .num 2
  else if s = "summarize" then .num 3
  else if s = "compose" then .num 4
  else if s = "validate" then .num 5
  else if s = "done" then .num 6
  else if s ∈ objectProtoKeys then .protoMember s
  else .undefined

/-- JavaScript truthiness of such a lookup result: the number `0` and
`undefined` are falsy; nonzero numbers and inherited prototype members
(functions/objects) are truthy. -/
def JsValue.truthy : JsValue → Bool
  | .num 0 => false
  | .num _ => true
  | .protoMember _ => true
  | .undefined => false

/-- Faithful model of the whole argument `stepMap[status.step] || 0`
passed to `setCurrentStep` in `Index.tsx`: JavaScript `||` keeps the
left operand when it is truthy and falls back to `0` otherwise. -/
def stepMapOrZero (s : String) : JsValue :=
  if (stepMapLookup s).truthy then stepMapLookup s else .num 0

/-- One entry of the `steps` array of `GenerationStepper`. -/
structure StepInfo where
  id : Nat
  name : String
  description : String
deriving Repr, DecidableEq

/-- The `steps` array of `GenerationStepper` (in `GeneratorForm.tsx`):
the displayed progress steps, in order. -/
def steps : List StepInfo :=
  [ ⟨0, "Discover", "Finding pages"⟩,
    ⟨1, "Extract", "Parsing content"⟩,
    ⟨2, "Summarize", "Processing data"⟩,
    ⟨3, "Compose", "Generating llms.txt"⟩,
    ⟨4, "Validate", "Checking format"⟩,
    ⟨5, "Done", "Complete"⟩ ]

/-- The `handleRegenerate` handler of `Index.tsx`: when `currentSiteUrl`
is truthy (nonempty), `handleGeneration` is called with that URL and the
fixed default settings; when it is empty nothing is started. -/
def handleRegenerate (currentSiteUrl : String) : Option GeneratorData :=
  if currentSiteUrl ≠ "" then
    some { siteUrl := currentSiteUrl, extras := "", maxPages := 50,
           language := "auto", strictMode := true, includeOptional := true,
           whitelistDomains := "" }
  else none

/-- The body of a backend `/status/{site_url}` JSON response as read by
`pollStatus` in `Index.tsx`: `status.step`, `status.status` and the
optional `status.message`. -/
structure StatusBody where
  step : String
  status : String
  message : Option String
deriving Repr, DecidableEq

/-- Outcome of one client `fetch` as observed by `Index.tsx`: the call
throws (network error), returns a non-ok response, or returns an ok
response with a parsed body. -/
inductive Fetched (α : Type) where
  | netError : Fetched α
  | notOk : Fetched α
  | ok : α → Fetched α
deriving Repr, DecidableEq

/-- The React state of the `Index` component that `pollStatus` reads
and writes. -/
structure ClientState where
  isGenerating : Bool
  currentStep : Nat
  generatedContent : Option String
  currentSiteUrl : String
deriving Repr, DecidableEq

/-- One Supabase call available to the client on the `runs` and
`artifacts` tables.  `Index.tsx` only ever issues the first three;
`updateArtifact` is in the vocabulary so that "artifacts are never
mutated" is a statement about emitted actions, not about the
vocabulary. -/
inductive DbAction where
  | insertRun (siteUrl status : String) (settings : GeneratorData)
  | updateRun (status : String) (setFinishedAt : Bool)
  | insertArtifact (kind content : String)
  | updateArtifact (content : String)
deriving Repr, DecidableEq

/-- `true` exactly for the artifact-mutating Supabase call. -/
def DbAction.mutatesArtifact : DbAction → Bool
  | .updateArtifact _ => true
  | _ => false

/-- `true` exactly for the artifact-creating Supabase call. -/
def DbAction.insertsArtifact : DbAction → Bool
  | .insertArtifact _ _ => true
  | _ => false

/-- `true` exactly for the run-updating Supabase call. -/
def DbAction.updatesRun : DbAction → Bool
  | .updateRun _ _ => true
  | _ => false

/-- Result of one `pollStatus` invocation: the new component state, the
Supabase calls issued (in order), whether the `/result` endpoint was
fetched, and whether another poll was scheduled (`setTimeout(pollStatus,
2000)` from either the `else` branch or the surrounding `catch`). -/
structure PollResult where
  state : ClientState
  dbActions : List DbAction
  fetchedResult : Bool
  reschedule : Bool
deriving Repr, DecidableEq

/-- One invocation of `pollStatus` in `Index.tsx`, as a function of the
component state and of the two fetch outcomes it may observe (the
`/status` fetch, and the `/result` fetch made only on `status =
"completed"`).  Control flow follows the source: a thrown error — from a
failed fetch or from the explicit `throw` on `status.status === "error"`
— is caught by `pollStatus`'s own `catch`, which schedules a retry; a
non-ok `/status` response returns without scheduling anything; a non-ok
`/result` response does nothing further and schedules nothing. -/
def pollStep (st : ClientState) (statusRes : Fetched StatusBody)
    (resultRes : Fetched String) : PollResult :=
  match statusRes with
  | .netError => ⟨st, [], false, true⟩
  | .notOk => ⟨st, [], false, false⟩
  | .ok body =>
    let st1 := { st with currentStep := stepMap body.step }
    if body.status = "completed" then
      match resultRes with
      | .ok content =>
        ⟨{ st1 with generatedContent := some content, isGenerating := false },
         [.updateRun "completed" true, .insertArtifact "llms_txt" content],
         true, false⟩
      | .notOk => ⟨st1, [], true, false⟩
      | .netError => ⟨st1, [], true, true⟩
    else if body.status = "error" then ⟨st1, [], false, true⟩
    else ⟨st1, [], false, true⟩

/-- The polling loop of `Index.tsx` run against a finite schedule of
environment responses: each scheduled poll consumes the next
`(statusRes, resultRes)` pair and the loop continues while `pollStep`
reschedules.  Returns the concatenated Supabase calls of the run. -/
def pollTrace (st : ClientState) :
    List (Fetched StatusBody × Fetched String) → List DbAction
  | [] => []
  | (s, r) :: rest =>
    let p := pollStep st s r
    p.dbActions ++ (if p.reschedule then pollTrace p.state rest else [])

/-- One external call made by `handleGeneration` in `Index.tsx`. -/
inductive ClientAction where
  | insertRun (siteUrl status : String) (settings : GeneratorData)
  | callGenerate (d : GeneratorData)
  | startPolling
deriving Repr, DecidableEq

/-- The sequence of external calls made by one `handleGeneration`
invocation in `Index.tsx`, as a function of the two outcomes it awaits:
whether the Supabase `runs` insert succeeds and whether the backend
`POST /generate` responds ok.  The insert is issued first,
unconditionally; on insert error the handler returns without calling
the backend; on a non-ok generate response the handler throws (caught by
the outer catch) without starting the poll loop. -/
def handleGenActions (d : GeneratorData) (insertOk generateOk : Bool) :
    List ClientAction :=
  .insertRun d.siteUrl "started" d ::
    (if insertOk then
      .callGenerate d :: (if generateOk then [.startPolling] else [])
    else [])

/-- Modelled from the spec: the stage vocabulary of a run,
`start < discover < extract < summarize < compose < validate < done`,
plus the terminal `error` stage.  The backend Run Coordinator that owns
this state machine is not among the shipped sources. -/
inductive Stage where
  | start | discover | extract | summarize | compose | validate | done | error
deriving Repr, DecidableEq

/-- Modelled from the spec: the coarse run status vocabulary
`{started, completed, error}`. -/
inductive CoordStatus where
  | started | completed | error
deriving Repr, DecidableEq

/-- Modelled from the spec: one run record of the Run Coordinator's
active-run registry, keyed by the derived `siteKey`. -/
structure CoordRun where
  runId : Nat
  siteKey : String
  stage : Stage
  status : CoordStatus
deriving Repr, DecidableEq

/-- Modelled from the spec: the caller-facing error of the coordinator's
`start` operation. -/
inductive StartError where
  | AlreadyRunning
deriving Repr, DecidableEq

/-- A run is active when its status is non-terminal, i.e. `started`. -/
def CoordRun.isActive (r : CoordRun) : Bool := r.status == .started

/-- Whether the registry holds an active (non-terminal) run for the
given site key. -/
def hasActiveRun (reg : List CoordRun) (key : String) : Bool :=
  reg.any (fun r => r.siteKey == key && r.isActive)

/-- Modelled from the spec: the Run Coordinator's
`start(siteUrl, settings) → runId` operation, restricted to its registry
effect — it "fails with `AlreadyRunning` if an active (non-terminal) run
exists for the derived `siteKey`" and otherwise registers a fresh run in
stage `start`.  The backend implementing this is not among the shipped
sources.  Returns the call's outcome together with the registry after
the call. -/
def coordStart (reg : List CoordRun) (key : String) (freshId : Nat) :
    Except StartError Nat × List CoordRun :=
  if hasActiveRun reg key then (.error .AlreadyRunning, reg)
  else (.ok freshId, ⟨freshId, key, .start, .started⟩ :: reg)

/-- Modelled from the spec: the environment the Crawler works in — which
URLs fetch successfully, which links a fetched page yields, the host of
a URL, URL normalization for the visited set, and a bound on the number
of traversal steps (the spec's traversal always terminates; the bound
only truncates, and the verified properties hold for every bound).
The backend Crawler is not among the shipped sources. -/
structure CrawlEnv where
  fetchable : String → Bool
  links : String → List String
  host : String → String
  normalize : String → String
  fuel : Nat

/-- Modelled from the spec: a URL is in scope when its host equals the
seed's host or appears in the whitelist. -/
def inScope (env : CrawlEnv) (whitelist : List String) (seedHost url : String) :
    Bool :=
  env.host url == seedHost || whitelist.contains (env.host url)

/-- Modelled from the spec: the Crawler's breadth-first traversal — a
FIFO frontier, a visited set keyed by normalized URL, a hard stop once
`maxPages` distinct in-scope URLs have been visited, failed fetches
contributing no links and excluded from the result.  `acc` collects
successfully fetched URLs in visit order (reversed on return). -/
def crawl (env : CrawlEnv) (maxPages : Nat) (whitelist : List String)
    (seedHost : String) :
    Nat → List String → List String → List String → List String
  | 0, _, _, acc => acc.reverse
  | _ + 1, [], _, acc => acc.reverse
  | fuel + 1, u :: rest, visited, acc =>
    if visited.length ≥ maxPages then acc.reverse
    else if env.normalize u ∈ visited then
      crawl env maxPages whitelist seedHost fuel rest visited acc
    else if env.fetchable u then
      crawl env maxPages whitelist seedHost fuel
        (rest ++ (env.links u).filter (inScope env whitelist seedHost))
        (env.normalize u :: visited) (u :: acc)
    else
      crawl env maxPages whitelist seedHost fuel rest
        (env.normalize u :: visited) acc

/-- Modelled from the spec: the Crawler's
`discover(seedUrl, maxPages, whitelistDomains) → orderedList<URL>`
contract — breadth-first from the seed, "never exceeding `maxPages`,
always including the seed URL first if fetchable". -/
def discover (env : CrawlEnv) (seedUrl : String) (maxPages : Nat)
    (whitelist : List String) : List String :=
  crawl env maxPages whitelist (env.host seedUrl) (env.fuel + 1) [seedUrl] [] []

/-- A single always-fetchable one-page site used to instantiate the
crawler contract. -/
def onePageEnv : CrawlEnv :=
  { fetchable := fun _ => true, links := fun _ => [],
    host := fun _ => "example.com", normalize := fun u => u, fuel := 4 }

/-- The crawl loop's result never holds more URLs than `maxPages`, as
long as the accumulator is bounded by the visited set and the visited
set is within the cap. -/
theorem crawl_length_le (env : CrawlEnv) (maxPages : Nat) (wl : List String)
    (sh : String) :
    ∀ (fuel : Nat) (frontier visited acc : List String),
      acc.length ≤ visited.length → visited.length ≤ maxPages →
      (crawl env maxPages wl sh fuel frontier visited acc).length ≤ maxPages := by
  intro fuel
  induction fuel with
  | zero =>
    intro frontier visited acc h1 h2
    simpa [crawl] using h1.trans h2
  | succ fuel ih =>
    intro frontier visited acc h1 h2
    cases frontier with
    | nil => simpa [crawl] using h1.trans h2
    | cons u rest =>
      by_cases hcap : visited.length ≥ maxPages
      · simpa [crawl, hcap] using h1.trans h2
      · by_cases hv : env.normalize u ∈ visited
        · simpa [crawl, hcap, hv] using ih rest visited acc h1 h2
        · by_cases hf : env.fetchable u
          · simpa [crawl, hcap, hv, hf] using
              ih (rest ++ (env.links u).filter (inScope env wl sh))
                (env.normalize u :: visited) (u :: acc)
                (by simpa using Nat.succ_le_succ h1) (by simp; omega)
          · simpa [crawl, hcap, hv, hf] using
              ih rest (env.normalize u :: visited) acc
                (h1.trans (Nat.le_succ _)) (by simp; omega)

/-- The crawl loop only ever appends to the already-accumulated URLs:
its result extends `acc.reverse`. -/
theorem crawl_acc_extends (env : CrawlEnv) (maxPages : Nat) (wl : List String)
    (sh : String) :
    ∀ (fuel : Nat) (frontier visited acc : List String),
      ∃ t, crawl env maxPages wl sh fuel frontier visited acc =
        acc.reverse ++ t := by
  intro fuel
  induction fuel with
  | zero =>
    intro frontier visited acc
    exact ⟨[], by simp [crawl]⟩
  | succ fuel ih =>
    intro frontier visited acc
    cases frontier with
    | nil => exact ⟨[], by simp [crawl]⟩
    | cons u rest =>
      by_cases hcap : visited.length ≥ maxPages
      · exact ⟨[], by simp [crawl, hcap]⟩
      · by_cases hv : env.normalize u ∈ visited
        · obtain ⟨t, ht⟩ := ih rest visited acc
          exact ⟨t, by simpa [crawl, hcap, hv] using ht⟩
        · by_cases hf : env.fetchable u
          · obtain ⟨t, ht⟩ := ih
              (rest ++ (env.links u).filter (inScope env wl sh))
              (env.normalize u :: visited) (u :: acc)
            refine ⟨u :: t, ?_⟩
            simpa [crawl, hcap, hv, hf] using ht
          · obtain ⟨t, ht⟩ := ih rest (env.normalize u :: visited) acc
            exact ⟨t, by simpa [crawl, hcap, hv, hf] using ht⟩

/-- One `pollStatus` invocation either issues no Supabase call at all, or
— exactly on an ok status response with `status = "completed"` together
with an ok result fetch — issues the run update and the artifact insert
and does not reschedule. -/
theorem pollStep_shape (st : ClientState) (s : Fetched StatusBody)
    (r : Fetched String) :
    (pollStep st s r).dbActions = [] ∨
    ((pollStep st s r).reschedule = false ∧
      ∃ body content, s = .ok body ∧ body.status = "completed" ∧
        r = .ok content ∧
        (pollStep st s r).dbActions =
          [.updateRun "completed" true, .insertArtifact "llms_txt" content]) := by
  cases s with
  | netError => exact Or.inl rfl
  | notOk => exact Or.inl rfl
  | ok body =>
    by_cases hc : body.status = "completed"
    · cases r with
      | netError => exact Or.inl (by simp [pollStep, hc])
      | notOk => exact Or.inl (by simp [pollStep, hc])
      | ok content =>
        exact Or.inr ⟨by simp [pollStep, hc], body, content, rfl, hc, rfl,
          by simp [pollStep, hc]⟩
    · by_cases he : body.status = "error"
      · exact Or.inl (by simp [pollStep, hc, he])
      · exact Or.inl (by simp [pollStep, hc, he])

/-- A rescheduling `pollStatus` invocation issues no Supabase call. -/
theorem pollStep_reschedule_empty (st : ClientState) (s : Fetched StatusBody)
    (r : Fetched String) (h : (pollStep st s r).reschedule = true) :
    (pollStep st s r).dbActions = [] := by
  rcases pollStep_shape st s r with h0 | ⟨hf, _⟩
  · exact h0
  · rw [hf] at h; cases h

/-- The Supabase calls of a whole polling run: either none at all, or
exactly one run update (to `completed`, setting `finished_at`) followed
by exactly one artifact insert of kind `llms_txt`. -/
theorem pollTrace_shape (st : ClientState)
    (envs : List (Fetched StatusBody × Fetched String)) :
    pollTrace st envs = [] ∨
    ∃ content, pollTrace st envs =
      [.updateRun "completed" true, .insertArtifact "llms_txt" content] := by
  induction envs generalizing st with
  | nil => exact Or.inl rfl
  | cons e rest ih =>
    obtain ⟨s, r⟩ := e
    have hunf : pollTrace st ((s, r) :: rest) =
        (pollStep st s r).dbActions ++
          (if (pollStep st s r).reschedule then
            pollTrace (pollStep st s r).state rest else []) := rfl
    rw [hunf]
    by_cases hr : (pollStep st s r).reschedule = true
    · rw [pollStep_reschedule_empty st s r hr, hr]
      simpa using ih (pollStep st s r).state
    · rcases pollStep_shape st s r with h0 |
        ⟨hres, body, content, _, _, _, hacts⟩
      · rw [h0]
        exact Or.inl (by simp [hr])
      · rw [hacts]
        exact Or.inr ⟨content, by simp [hres]⟩

/-- Claim C3 (counterexample): the stage string `"toString"` lies
outside the stage vocabulary, yet `stepMap[status.step] || 0` does not
yield 0 for it — the object-literal lookup walks the prototype chain and
finds the truthy inherited `Object.prototype.toString`, which `|| 0`
keeps, so `setCurrentStep` receives a function rather than step 0. -/
theorem C3_counterexample :
    stepMapOrZero "toString" = .protoMember "toString" ∧
    stepMapOrZero "toString" ≠ .num 0 := by
  decide

/-- Claim C3 (amended): the client maps the reported stage by the fixed
table — `start` to 0, `discover` to 1, `extract` to 2, `summarize` to 3,
`compose` to 4, `validate` to 5, `done` to 6; a stage outside this
vocabulary maps to 0 unless it names a member inherited from
`Object.prototype`, in which case the lookup yields that truthy
inherited member (not a step number) instead of 0; the displayed step
labels are exactly the fixed pipeline order with ids `0..5` in
positional order. -/
theorem C3_step_mapping_amended :
    stepMapOrZero "start" = .num 0 ∧ stepMapOrZero "discover" = .num 1 ∧
    stepMapOrZero "extract" = .num 2 ∧ stepMapOrZero "summarize" = .num 3 ∧
    stepMapOrZero "compose" = .num 4 ∧ stepMapOrZero "validate" = .num 5 ∧
    stepMapOrZero "done" = .num 6 ∧
    (∀ s : String,
      s ∉ ["start", "discover", "extract", "summarize", "compose",
           "validate", "done"] →
      s ∉ objectProtoKeys →
      stepMapOrZero s = .num 0) ∧
    (∀ s ∈ objectProtoKeys, stepMapOrZero s = .protoMember s) ∧
    steps.map StepInfo.name =
      ["Discover", "Extract", "Summarize", "Compose", "Validate", "Done"] ∧
    ∀ i : Fin steps.length, (steps.get i).id = i.val := by
  refine ⟨by decide, by decide, by decide, by decide, by decide, by decide,
    by decide, ?_, by decide, rfl, ?_⟩
  · intro s hs hp
    simp only [List.mem_cons, List.not_mem_nil, or_false, not_or] at hs
    obtain ⟨h1, h2, h3, h4, h5, h6, h7⟩ := hs
    simp [stepMapOrZero, stepMapLookup, JsValue.truthy, h1, h2, h3, h4,
      h5, h6, h7, hp]
  · intro i
    match i with
    | ⟨0, _⟩ => rfl
    | ⟨1, _⟩ => rfl
    | ⟨2, _⟩ => rfl
    | ⟨3, _⟩ => rfl
    | ⟨4, _⟩ => rfl
    | ⟨5, _⟩ => rfl

/-- Witness for C3 (amended): the stage string `"weird"` is neither in
the vocabulary nor inherited from `Object.prototype` and maps to step 0,
while the inherited name `"valueOf"` yields the truthy inherited
member. -/
theorem C3_step_mapping_amended_witness :
    stepMapOrZero "weird" = .num 0 ∧
    stepMapOrZero "valueOf" = .protoMember "valueOf" :=
  ⟨C3_step_mapping_amended.2.2.2.2.2.2.2.1 "weird" (by decide) (by decide),
   C3_step_mapping_amended.2.2.2.2.2.2.2.2.1 "valueOf" (by decide)⟩

/-- Claim C6 (counterexample): the Max Pages edit `"-5"` parses, is not
replaced by the default, and yields a negative `maxPages`, so the
handler does not guarantee `maxPages > 0`. -/
theorem C6_counterexample :
    maxPagesUpdate "-5" = -5 ∧ ¬ (0 < maxPagesUpdate "-5") := by decide

/-- Claim C6 (amended): every Max Pages edit that does not parse to a
number, or parses to zero, is replaced by the default 50; a parsed
nonzero value — including a negative one — is kept unchanged, so the
handler guarantees `maxPages ≠ 0` but not `maxPages > 0`. -/
theorem C6_maxPages_amended (s : String) :
    maxPagesUpdate s ≠ 0 ∧
    (parseIntJS s = none → maxPagesUpdate s = 50) ∧
    (parseIntJS s = some 0 → maxPagesUpdate s = 50) ∧
    (∀ n : Int, parseIntJS s = some n → n ≠ 0 → maxPagesUpdate s = n) := by
  cases h : parseIntJS s with
  | none => simp [maxPagesUpdate, h]
  | some n =>
    by_cases hn : n = 0
    · subst hn
      simp [maxPagesUpdate, h]
    · refine ⟨by simp [maxPagesUpdate, h, hn], ?_, ?_, ?_⟩
      · intro hnone; simp at hnone
      · intro h0
        exact absurd (Option.some.inj h0) hn
      · intro m hm _
        obtain rfl : n = m := Option.some.inj hm
        simp [maxPagesUpdate, h, hn]

/-- Witness for C6 (amended): the non-numeric edit `"abc"` falls back to
50, and the zero edit `"0"` falls back to 50. -/
theorem C6_maxPages_amended_witness :
    maxPagesUpdate "abc" = 50 ∧ maxPagesUpdate "0" = 50 :=
  ⟨(C6_maxPages_amended "abc").2.1 (by decide),
   (C6_maxPages_amended "0").2.2.1 (by decide)⟩

/-- Claim C7: `handleGeneration` inserts the run record — site URL,
status `"started"`, the complete settings — as its first external call,
before the backend `/generate` endpoint, and the `/generate` call occurs
exactly when the insertion succeeded. -/
theorem C7_insert_before_generate (d : GeneratorData)
    (insertOk generateOk : Bool) :
    (handleGenActions d insertOk generateOk).head? =
      some (.insertRun d.siteUrl "started" d) ∧
    (ClientAction.callGenerate d ∈ handleGenActions d insertOk generateOk ↔
      insertOk = true) := by
  cases insertOk <;> cases generateOk <;>
    simp [handleGenActions]

/-- Claim C9: `handleSubmit` invokes the generation callback only with a
site URL that is nonempty after trimming; when the trimmed URL is empty
the callback is not invoked and the submit button is disabled, and the
button is also disabled whenever a generation is in progress. -/
theorem C9_submit_guard (formData : GeneratorData) (isGen : Bool) :
    (∀ d, handleSubmit formData = some d →
      d = formData ∧ trimJS d.siteUrl ≠ "") ∧
    (trimJS formData.siteUrl = "" →
      handleSubmit formData = none ∧ submitDisabled isGen formData = true) ∧
    (isGen = true → submitDisabled isGen formData = true) := by
  by_cases h : trimJS formData.siteUrl = ""
  · refine ⟨?_, fun _ => ⟨by simp [handleSubmit, h], by simp [submitDisabled, h]⟩,
      fun hg => by simp [submitDisabled, hg]⟩
    intro d hd
    simp [handleSubmit, h] at hd
  · refine ⟨?_, fun hc => absurd hc h, fun hg => by simp [submitDisabled, hg]⟩
    intro d hd
    simp only [handleSubmit, h, ne_eq, not_false_eq_true, if_true,
      Option.some.injEq] at hd
    exact ⟨hd.symm, hd ▸ h⟩

/-- Witness for C9: a whitespace-only site URL never reaches the
generation callback and keeps the button disabled. -/
theorem C9_submit_guard_witness :
    handleSubmit { initialFormData with siteUrl := "   " } = none ∧
    submitDisabled false { initialFormData with siteUrl := "   " } = true :=
  (C9_submit_guard { initialFormData with siteUrl := "   " } false).2.1
    (by decide)

/-- Claim C10: `handleRegenerate` with a nonempty current site URL starts
a generation for that URL with exactly the fixed default settings,
regardless of any earlier settings; with an empty current site URL it
starts nothing. -/
theorem C10_regenerate_defaults (url : String) :
    (url ≠ "" → handleRegenerate url =
      some { siteUrl := url, extras := "", maxPages := 50,
             language := "auto", strictMode := true, includeOptional := true,
             whitelistDomains := "" }) ∧
    handleRegenerate "" = none := by
  refine ⟨fun h => ?_, rfl⟩
  simp [handleRegenerate, h]

/-- Witness for C10: regenerating with a concrete site URL yields the
default settings for that URL. -/
theorem C10_regenerate_defaults_witness :
    handleRegenerate "https://arisesim.com" =
      some { siteUrl := "https://arisesim.com", extras := "", maxPages := 50,
             language := "auto", strictMode := true, includeOptional := true,
             whitelistDomains := "" } :=
  (C10_regenerate_defaults "https://arisesim.com").1 (by decide)

/-- Claim C1 (counterexample): a second start for a site whose run is
still active in the `discover` stage fails with `AlreadyRunning` at the
coordinator — yet the client has inserted a new run record (status
`"started"`) into the run store, refuting "no new run record is
created". -/
theorem C1_counterexample :
    coordStart [⟨1, "https://a.com", Stage.discover, CoordStatus.started⟩]
        "https://a.com" 2 =
      (.error .AlreadyRunning,
       [⟨1, "https://a.com", Stage.discover, CoordStatus.started⟩]) ∧
    ClientAction.insertRun "https://a.com" "started"
        { initialFormData with siteUrl := "https://a.com" } ∈
      handleGenActions { initialFormData with siteUrl := "https://a.com" }
        true false := by
  refine ⟨rfl, ?_⟩
  simp [handleGenActions]

/-- Claim C1 (amended): starting a run while an active (non-terminal)
run exists for the same site key fails with `AlreadyRunning` and leaves
the coordinator registry unchanged — in particular while the first run
is still in `discover` — but the client has already inserted a new run
record into the persistent run store as its first call, before invoking
the backend, so a rejected start still leaves a fresh run-store
record. -/
theorem C1_already_running_amended (reg : List CoordRun) (key : String)
    (freshId : Nat) (d : GeneratorData) (generateOk : Bool)
    (h : hasActiveRun reg key = true) :
    coordStart reg key freshId = (.error .AlreadyRunning, reg) ∧
    (handleGenActions d true generateOk).head? =
      some (.insertRun d.siteUrl "started" d) ∧
    ClientAction.callGenerate d ∈ handleGenActions d true generateOk := by
  refine ⟨by simp [coordStart, h], rfl, ?_⟩
  simp [handleGenActions]

/-- Witness for C1 (amended): a registry with one active run in
`discover` for the site key rejects a second start and is unchanged,
while the client trace still begins with the run-store insert. -/
theorem C1_already_running_amended_witness :
    coordStart [⟨1, "https://a.com", Stage.discover, CoordStatus.started⟩]
        "https://a.com" 2 =
      (.error .AlreadyRunning,
       [⟨1, "https://a.com", Stage.discover, CoordStatus.started⟩]) ∧
    (handleGenActions initialFormData true false).head? =
      some (.insertRun initialFormData.siteUrl "started" initialFormData) ∧
    ClientAction.callGenerate initialFormData ∈
      handleGenActions initialFormData true false :=
  C1_already_running_amended
    [⟨1, "https://a.com", Stage.discover, CoordStatus.started⟩]
    "https://a.com" 2 initialFormData false (by decide)

/-- Claim C2 (code-bug evaluation): on a status response with
`status = "error"`, `pollStatus` throws, but its own catch swallows the
error and schedules another poll — polling does not cease, no result is
fetched, no Supabase call is made, and `isGenerating` stays `true`, so
the error is never surfaced. -/
theorem C2_error_keeps_polling :
    pollStep ⟨true, 1, none, "https://a.com"⟩
        (.ok ⟨"discover", "error", some "Generation failed"⟩) .notOk =
      ⟨⟨true, 1, none, "https://a.com"⟩, [], false, true⟩ := by
  rfl

/-- Claim C4 (counterexample): a run observed with status completed
whose result fetch returns a non-ok response produces no artifact at
all (and the poll loop stops), refuting "exactly one artifact record is
created for every run that reaches status completed". -/
theorem C4_counterexample :
    pollTrace ⟨true, 0, none, "https://a.com"⟩
        [(.ok ⟨"done", "completed", none⟩, .notOk)] = [] := by
  rfl

/-- Claim C4 (amended): per polled run at most one artifact record is
created, always with kind `"llms_txt"`; it is created exactly when the
client observes status completed together with a successfully fetched
result, and artifacts are never mutated.  A completed run whose result
fetch fails gets no artifact. -/
theorem C4_artifact_amended (st : ClientState)
    (envs : List (Fetched StatusBody × Fetched String)) :
    ((pollTrace st envs).filter DbAction.insertsArtifact).length ≤ 1 ∧
    (∀ a ∈ pollTrace st envs, a.mutatesArtifact = false) ∧
    (∀ k c, DbAction.insertArtifact k c ∈ pollTrace st envs →
      k = "llms_txt") ∧
    (∀ s r, (∃ k c, DbAction.insertArtifact k c ∈ (pollStep st s r).dbActions) →
      ∃ body content, s = .ok body ∧ body.status = "completed" ∧
        r = .ok content) ∧
    (∀ body content, body.status = "completed" →
      (pollStep st (.ok body) (.ok content)).dbActions =
        [.updateRun "completed" true, .insertArtifact "llms_txt" content]) := by
  refine ⟨?_, ?_, ?_, ?_, ?_⟩
  · rcases pollTrace_shape st envs with h | ⟨c, h⟩ <;>
      simp [h, DbAction.insertsArtifact]
  · intro a ha
    rcases pollTrace_shape st envs with h | ⟨c, h⟩ <;> rw [h] at ha
    · cases ha
    · simp only [List.mem_cons, List.not_mem_nil, or_false] at ha
      rcases ha with rfl | rfl <;> rfl
  · intro k c hk
    rcases pollTrace_shape st envs with h | ⟨c0, h⟩ <;> rw [h] at hk
    · cases hk
    · simp at hk
      exact hk.1
  · rintro s r ⟨k, c, hk⟩
    rcases pollStep_shape st s r with h | ⟨_, body, content, hs, hc, hr, h⟩
    · rw [h] at hk; cases hk
    · exact ⟨body, content, hs, hc, hr⟩
  · intro body content hc
    simp [pollStep, hc]

/-- Witness for C4 (amended): a concrete completed run with a fetched
result creates exactly the run update plus the single `llms_txt`
artifact. -/
theorem C4_artifact_amended_witness :
    (pollStep ⟨true, 0, none, "https://a.com"⟩
        (.ok ⟨"done", "completed", none⟩) (.ok "# A\n")).dbActions =
      [.updateRun "completed" true, .insertArtifact "llms_txt" "# A\n"] :=
  (C4_artifact_amended ⟨true, 0, none, "https://a.com"⟩ []).2.2.2.2
    ⟨"done", "completed", none⟩ "# A\n" rfl

/-- Claim C5 (counterexample): a run that becomes terminal with status
error is never written back — the polling trace for error responses
contains no run update at all, so `finished_at` is never set for the
error terminal status, refuting "set whenever the run becomes terminal —
for both terminal statuses". -/
theorem C5_counterexample :
    pollTrace ⟨true, 0, none, "https://a.com"⟩
        [(.ok ⟨"discover", "error", some "boom"⟩, .notOk),
         (.ok ⟨"discover", "error", some "boom"⟩, .notOk)] = [] := by
  rfl

/-- Claim C5 (amended): the client updates the run record at most once,
and only to status `"completed"` with `finished_at` set, exactly when it
observes status completed together with a successfully fetched result;
on an error observation it issues no Supabase call at all, so for a run
ending in error `finished_at` stays null and the stored status stays
`"started"`. -/
theorem C5_finished_amended (st : ClientState)
    (envs : List (Fetched StatusBody × Fetched String)) :
    ((pollTrace st envs).filter DbAction.updatesRun).length ≤ 1 ∧
    (∀ status fin, DbAction.updateRun status fin ∈ pollTrace st envs →
      status = "completed" ∧ fin = true) ∧
    (∀ s r, (∃ status fin,
        DbAction.updateRun status fin ∈ (pollStep st s r).dbActions) →
      ∃ body content, s = .ok body ∧ body.status = "completed" ∧
        r = .ok content) ∧
    (∀ body r, body.status = "error" →
      (pollStep st (.ok body) r).dbActions = []) := by
  refine ⟨?_, ?_, ?_, ?_⟩
  · rcases pollTrace_shape st envs with h | ⟨c, h⟩ <;>
      simp [h, DbAction.updatesRun]
  · intro status fin hm
    rcases pollTrace_shape st envs with h | ⟨c, h⟩ <;> rw [h] at hm
    · cases hm
    · simp at hm
      exact ⟨hm.1, hm.2⟩
  · rintro s r ⟨status, fin, hm⟩
    rcases pollStep_shape st s r with h | ⟨_, body, content, hs, hc, hr, h⟩
    · rw [h] at hm; cases hm
    · exact ⟨body, content, hs, hc, hr⟩
  · intro body r hbody
    have : body.status ≠ "completed" := by
      rw [hbody]; decide
    cases r <;> simp [pollStep, this, hbody]

/-- Witness for C5 (amended): a concrete error observation issues no
Supabase call. -/
theorem C5_finished_amended_witness :
    (pollStep ⟨true, 0, none, "https://a.com"⟩
        (.ok ⟨"discover", "error", some "boom"⟩) .notOk).dbActions = [] :=
  (C5_finished_amended ⟨true, 0, none, "https://a.com"⟩ []).2.2.2
    ⟨"discover", "error", some "boom"⟩ .notOk rfl

/-- Claim C8: for every crawl environment, seed URL, page bound and
whitelist, the discovered list never exceeds `maxPages`, and whenever
the bound is positive and the seed is fetchable, the seed URL is the
first element of the list. -/
theorem C8_discover_contract (env : CrawlEnv) (seedUrl : String)
    (maxPages : Nat) (wl : List String) :
    (discover env seedUrl maxPages wl).length ≤ maxPages ∧
    (0 < maxPages → env.fetchable seedUrl = true →
      (discover env seedUrl maxPages wl).head? = some seedUrl) := by
  constructor
  · exact crawl_length_le env maxPages wl (env.host seedUrl) (env.fuel + 1)
      [seedUrl] [] [] (Nat.le_refl 0) (Nat.zero_le _)
  · intro hmp hf
    show (crawl env maxPages wl (env.host seedUrl) (env.fuel + 1)
      [seedUrl] [] []).head? = some seedUrl
    have hcap : ¬ (([] : List String).length ≥ maxPages) := by
      simp only [List.length_nil, ge_iff_le, Nat.le_zero]
      omega
    simp only [crawl]
    rw [if_neg hcap, if_neg (List.not_mem_nil (env.normalize seedUrl)),
      if_pos hf]
    obtain ⟨t, ht⟩ := crawl_acc_extends env maxPages wl (env.host seedUrl)
      env.fuel ([] ++ (env.links seedUrl).filter
        (inScope env wl (env.host seedUrl)))
      [env.normalize seedUrl] [seedUrl]
    rw [ht]
    rfl

/-- Witness for C8: crawling a one-page site with `maxPages = 1` yields
a list of at most one URL whose first element is the seed. -/
theorem C8_discover_contract_witness :
    (discover onePageEnv "https://example.com" 1 []).length ≤ 1 ∧
    (discover onePageEnv "https://example.com" 1 []).head? =
      some "https://example.com" :=
  ⟨(C8_discover_contract onePageEnv "https://example.com" 1 []).1,
   (C8_discover_contract onePageEnv "https://example.com" 1 []).2
     (by decide) rfl⟩

end LLOgen
